import Mathlib

/-!
Verification of the `dddantic` repository (modules `deepblu.di`,
`deepblu.di.registry`, `deepblu.domain`) against its specification.

The embedding models Python objects and factories explicitly:

* An interface key / provider is a `Factory`.  An atomic factory carries a
  numeric identity (Python callables are compared by identity when used as
  dict keys).  `Factory.many` models the aggregating lambda built by
  `provide_many`, which closes over a list of providers.
* Invoking a factory allocates a fresh object.  `PyVal.obj i n` is the
  object produced by the `n`-th allocation, performed by the atomic factory
  with identity `i`; this records provenance, so "the result comes from
  factory f" is expressible.  `World` threads the allocation counter and an
  ordered log of atomic-factory invocations (so "f was invoked" and
  "f was not re-invoked" are expressible).
* Raising `KeyError` / `TypeError` is modelled by `Option.none` results.
-/

/-- A provider / interface key: an atomic callable with identity, or the
aggregating closure produced by `provide_many`. -/
inductive Factory where
  | atom : Nat → Factory
  | many : List Factory → Factory

mutual

/-- Structural boolean equality for `Factory` (a nested inductive, so the
instance is written by hand). -/
def Factory.beq : Factory → Factory → Bool
  | Factory.atom i, Factory.atom j => i == j
  | Factory.many fs, Factory.many gs => beqFactoryList fs gs
  | _, _ => false

/-- Structural boolean equality for lists of factories. -/
def beqFactoryList : List Factory → List Factory → Bool
  | [], [] => true
  | f :: fs, g :: gs => Factory.beq f g && beqFactoryList fs gs
  | _, _ => false

end

mutual

theorem factoryBeq_iff : (a b : Factory) → (Factory.beq a b = true ↔ a = b)
  | Factory.atom _, Factory.atom _ => by simp [Factory.beq]
  | Factory.atom _, Factory.many _ => by simp [Factory.beq]
  | Factory.many _, Factory.atom _ => by simp [Factory.beq]
  | Factory.many fs, Factory.many gs => by
      rw [Factory.beq, beqFactoryList_iff fs gs]
      simp

theorem beqFactoryList_iff : (fs gs : List Factory) →
    (beqFactoryList fs gs = true ↔ fs = gs)
  | [], [] => by simp [beqFactoryList]
  | [], _ :: _ => by simp [beqFactoryList]
  | _ :: _, [] => by simp [beqFactoryList]
  | f :: fs, g :: gs => by
      rw [beqFactoryList, Bool.and_eq_true, factoryBeq_iff f g,
        beqFactoryList_iff fs gs]
      simp

end

instance : DecidableEq Factory := fun a b =>
  decidable_of_iff (Factory.beq a b = true) (factoryBeq_iff a b)

/-- A Python value produced by factories: `obj i n` is the object produced by
atomic factory `i` at allocation step `n`; `list` is a Python list. -/
inductive PyVal where
  | obj : Nat → Nat → PyVal
  | list : List PyVal → PyVal

mutual

/-- Structural boolean equality for `PyVal` (a nested inductive, so the
instance is written by hand). -/
def PyVal.beq : PyVal → PyVal → Bool
  | PyVal.obj i n, PyVal.obj j m => i == j && n == m
  | PyVal.list vs, PyVal.list us => beqPyValList vs us
  | _, _ => false

/-- Structural boolean equality for lists of Python values. -/
def beqPyValList : List PyVal → List PyVal → Bool
  | [], [] => true
  | v :: vs, u :: us => PyVal.beq v u && beqPyValList vs us
  | _, _ => false

end

mutual

theorem pyvalBeq_iff : (a b : PyVal) → (PyVal.beq a b = true ↔ a = b)
  | PyVal.obj _ _, PyVal.obj _ _ => by simp [PyVal.beq]
  | PyVal.obj _ _, PyVal.list _ => by simp [PyVal.beq]
  | PyVal.list _, PyVal.obj _ _ => by simp [PyVal.beq]
  | PyVal.list vs, PyVal.list us => by
      rw [PyVal.beq, beqPyValList_iff vs us]
      simp

theorem beqPyValList_iff : (vs us : List PyVal) →
    (beqPyValList vs us = true ↔ vs = us)
  | [], [] => by simp [beqPyValList]
  | [], _ :: _ => by simp [beqPyValList]
  | _ :: _, [] => by simp [beqPyValList]
  | v :: vs, u :: us => by
      rw [beqPyValList, Bool.and_eq_true, pyvalBeq_iff v u,
        beqPyValList_iff vs us]
      simp

end

instance : DecidableEq PyVal := fun a b =>
  decidable_of_iff (PyVal.beq a b = true) (pyvalBeq_iff a b)

/-- Ambient effect state: next allocation index and the ordered log of
atomic-factory invocations. -/
structure World where
  nextInv : Nat
  calls : List Nat
deriving DecidableEq, Repr

mutual

/-- Invoke a factory: an atom allocates a fresh object and logs its call;
`many impls` runs the comprehension `[provider() for provider in impls]`
(see `provide_many` in src/deepblu/di.py) and wraps the results in a list. -/
def Factory.invoke : Factory → World → PyVal × World
  | Factory.atom i, w => (PyVal.obj i w.nextInv, ⟨w.nextInv + 1, w.calls ++ [i]⟩)
  | Factory.many fs, w =>
      let p := invokeList fs w
      (PyVal.list p.1, p.2)

/-- Invoke each factory of a list in order, collecting the results:
the list comprehension `[provider() for provider in impls]`. -/
def invokeList : List Factory → World → List PyVal × World
  | [], w => ([], w)
  | f :: fs, w =>
      let p := Factory.invoke f w
      let q := invokeList fs p.2
      (p.1 :: q.1, q.2)

end

/-- Update of a Python dict at one key (`d[k] = v`). -/
def upd {α : Type} (m : Factory → Option α) (k : Factory) (v : α) :
    Factory → Option α :=
  fun x => if x = k then some v else m x

namespace DiPy

/-- The memoizing `ProviderRegistry` of src/deepblu/di.py:
`__bindings__`, `__instances__`, plus the ambient allocation state. -/
structure ProviderRegistry where
  bindings : Factory → Option Factory
  instances : Factory → Option PyVal
  world : World

/-- A freshly constructed registry (`__init__`). -/
def ProviderRegistry.empty : ProviderRegistry :=
  ⟨fun _ => none, fun _ => none, ⟨0, []⟩⟩

/-- Method `ProviderRegistry.bind`: `self.__bindings__[interface] = impl`. -/
def ProviderRegistry.bind (s : ProviderRegistry) (interface impl : Factory) :
    ProviderRegistry :=
  { s with bindings := upd s.bindings interface impl }

/-- Method `ProviderRegistry.__setitem__`, an alias for `bind`. -/
def ProviderRegistry.setItem (s : ProviderRegistry) (interface impl : Factory) :
    ProviderRegistry :=
  s.bind interface impl

/-- Method `ProviderRegistry.get`: try the instance cache; on a cache miss look up the
binding and invoke it (a missing binding raises `KeyError`, modelled by
`none`); store the instance and return it. -/
def ProviderRegistry.get (s : ProviderRegistry) (interface : Factory) :
    Option (PyVal × ProviderRegistry) :=
  match s.instances interface with
  | some inst => some (inst, { s with instances := upd s.instances interface inst })
  | none =>
    match s.bindings interface with
    | none => none
    | some f =>
        let p := f.invoke s.world
        some (p.1, { s with instances := upd s.instances interface p.1, world := p.2 })

/-- Method `ProviderRegistry.__getitem__`, an alias for `get`. -/
def ProviderRegistry.getItem (s : ProviderRegistry) (interface : Factory) :
    Option (PyVal × ProviderRegistry) :=
  s.get interface

/-- Free function `bind`: `registry[interface] = impl`. -/
def bind (s : ProviderRegistry) (interface impl : Factory) : ProviderRegistry :=
  s.setItem interface impl

/-- Free function `add`: `bind(provider, provider)`. -/
def add (s : ProviderRegistry) (provider : Factory) : ProviderRegistry :=
  bind s provider provider

/-- Free function `get`: `registry[interface]`. -/
def get (s : ProviderRegistry) (interface : Factory) :
    Option (PyVal × ProviderRegistry) :=
  s.getItem interface

/-- An argument to `bind_all`: either an `(interface, impl)` tuple or a bare
provider. -/
inductive ProviderEntry where
  | binding : Factory → Factory → ProviderEntry
  | provider : Factory → ProviderEntry
deriving DecidableEq

/-- The key an entry binds. -/
def entryKey : ProviderEntry → Factory
  | ProviderEntry.binding i _ => i
  | ProviderEntry.provider f => f

/-- The implementation an entry binds (a bare provider is self-bound). -/
def entryImpl : ProviderEntry → Factory
  | ProviderEntry.binding _ m => m
  | ProviderEntry.provider f => f

/-- Free function `bind_all`: for each argument, unpack a tuple or self-pair a
bare provider, then `bind`. -/
def bind_all (s : ProviderRegistry) (providers : List ProviderEntry) :
    ProviderRegistry :=
  providers.foldl (fun st p => bind st (entryKey p) (entryImpl p)) s

/-- Free function `provide_many(interface, impls)`: the pair of the interface and the
aggregating lambda closing over `impls`. -/
def provide_many (interface : Factory) (impls : List Factory) :
    Factory × Factory :=
  (interface, Factory.many impls)

/-- What `inspect.getfullargspec` exposes about a wrapped callable:
its positional parameter names in order, its parameter annotations
(a dict, so names are distinct), and its declared return annotation. -/
structure FuncSpec where
  args : List String
  paramAnnotations : List (String × Factory)
  retAnn : Option Factory

/-- The dict `inspect.getfullargspec(func).annotations`: the annotation dict,
which also holds the return annotation under the key `"return"`. -/
def FuncSpec.fullAnnotations (g : FuncSpec) : List (String × Factory) :=
  g.paramAnnotations ++ (match g.retAnn with
    | some a => [("return", a)]
    | none => [])

/-- Dict lookup in a kwargs dict (`name in kwargs` / `kwargs[name]`). -/
def kwLookup : List (String × PyVal) → String → Option PyVal
  | [], _ => none
  | p :: t, name => if p.1 = name then some p.2 else kwLookup t name

/-- Dict insertion of a fresh key (`kwargs[name] = value`; only performed
when `name` is absent, so the new entry goes at the end). -/
def kwInsert (kw : List (String × PyVal)) (name : String) (v : PyVal) :
    List (String × PyVal) :=
  kw ++ [(name, v)]

/-- The loop of `inject.wrapper`: for each annotation `(name, provider)`,
if `provider in registry.bindings and name not in kwargs` then
`kwargs[name] = registry[provider]`.  The `none` fall-through of the inner
match is unreachable: a bound key always resolves
(`ProviderRegistry.getItem_isSome_of_bound`). -/
def injectLoop : List (String × Factory) → List (String × PyVal) →
    ProviderRegistry → List (String × PyVal) × ProviderRegistry
  | [], kw, s => (kw, s)
  | (name, provider) :: rest, kw, s =>
      if (s.bindings provider).isSome && (kwLookup kw name).isNone then
        match s.getItem provider with
        | some p => injectLoop rest (kwInsert kw name p.1) p.2
        | none => injectLoop rest kw s
      else injectLoop rest kw s

/-- Python's binding of `func(*args, **kwargs)` for a plain callable with
positional parameters `params`: fails (`TypeError`, modelled by `none`) when
there are too many positional arguments, an unexpected keyword, a parameter
supplied both positionally and by keyword, or a missing parameter; otherwise
yields the parameter environment. -/
def bindCall (params : List String) (args : List PyVal)
    (kw : List (String × PyVal)) : Option (List (String × PyVal)) :=
  if args.length ≤ params.length
      && kw.all (fun p => params.contains p.1)
      && (params.take args.length).all (fun q => (kwLookup kw q).isNone)
      && (params.drop args.length).all (fun q => (kwLookup kw q).isSome) then
    some ((params.take args.length).zip args ++
      (params.drop args.length).map
        (fun q => (q, (kwLookup kw q).getD (PyVal.list []))))
  else none

/-- Outcome of calling an inject-wrapped callable: the kwargs dict the
target is finally invoked with, the bound parameter environment of that
invocation (`none` models a `TypeError`), and the registry state. -/
structure CallOutcome where
  finalKwargs : List (String × PyVal)
  callEnv : Option (List (String × PyVal))
  state : ProviderRegistry

/-- Calling the wrapper produced by the `inject` decorator on `g` with
positional `args` and keyword `kw`: run the injection loop over the full
annotation dict, then perform `func(*args, **kwargs)`. -/
def inject (g : FuncSpec) (s : ProviderRegistry) (args : List PyVal)
    (kw : List (String × PyVal)) : CallOutcome :=
  let p := injectLoop g.fullAnnotations kw s
  ⟨p.1, bindCall g.args args p.1, p.2⟩

end DiPy

namespace RegistryPy

/-- The non-memoizing `ProviderRegistry` of src/deepblu/di/registry.py:
only `__bindings__`. -/
structure ProviderRegistry where
  bindings : Factory → Option Factory

/-- A freshly constructed registry (`__init__`). -/
def ProviderRegistry.empty : ProviderRegistry :=
  ⟨fun _ => none⟩

/-- Method `ProviderRegistry.bind`: `self.__bindings__[interface] = impl`. -/
def ProviderRegistry.bind (s : ProviderRegistry) (interface impl : Factory) :
    ProviderRegistry :=
  ⟨upd s.bindings interface impl⟩

/-- Method `ProviderRegistry.__setitem__`, an alias for `bind`. -/
def ProviderRegistry.setItem (s : ProviderRegistry) (interface impl : Factory) :
    ProviderRegistry :=
  s.bind interface impl

/-- Method `ProviderRegistry.get`: `self.__bindings__[interface]()` — look up the
binding (`KeyError`, modelled by `none`, when absent) and invoke it on every
call. -/
def ProviderRegistry.get (s : ProviderRegistry) (w : World) (interface : Factory) :
    Option (PyVal × World) :=
  match s.bindings interface with
  | none => none
  | some f => some (f.invoke w)

/-- Method `ProviderRegistry.__getitem__`, an alias for `get`. -/
def ProviderRegistry.getItem (s : ProviderRegistry) (w : World) (interface : Factory) :
    Option (PyVal × World) :=
  s.get w interface

end RegistryPy

namespace DomainPy

/-!
Embedding of src/deepblu/domain/__init__.py.  The pydantic schema engine and
the `deepblu.result` module are external collaborators (spec §6); scalar field
values are modelled as `Nat`.
-/

/-- A `ValueObject` instance: its class (pydantic model class, by identity)
and the field mapping returned by `self.dict()`, in insertion order.  Field
names of one instance are distinct (they form a dict). -/
structure ValueObject where
  cls : Nat
  fields : List (String × Nat)

/-- Python comparison of `(name, value)` tuples, as used by
`sorted(self.dict().items())`: lexicographic. -/
def itemLe (a b : String × Nat) : Prop :=
  a.1 < b.1 ∨ (a.1 = b.1 ∧ a.2 ≤ b.2)

instance itemLe.decRel : DecidableRel itemLe := fun a b => by
  unfold itemLe
  infer_instance

instance itemLe.total : IsTotal (String × Nat) itemLe where
  total a b := by
    rcases lt_trichotomy a.1 b.1 with h | h | h
    · exact Or.inl (Or.inl h)
    · rcases Nat.le_total a.2 b.2 with h2 | h2
      · exact Or.inl (Or.inr ⟨h, h2⟩)
      · exact Or.inr (Or.inr ⟨h.symm, h2⟩)
    · exact Or.inr (Or.inl h)

instance itemLe.trans : IsTrans (String × Nat) itemLe where
  trans a b c hab hbc := by
    rcases hab with h1 | ⟨h1, h1v⟩
    · rcases hbc with h2 | ⟨h2, _⟩
      · exact Or.inl (lt_trans h1 h2)
      · exact Or.inl (h2 ▸ h1)
    · rcases hbc with h2 | ⟨h2, h2v⟩
      · exact Or.inl (h1 ▸ h2)
      · exact Or.inr ⟨h1.trans h2, Nat.le_trans h1v h2v⟩

instance itemLe.antisymm : IsAntisymm (String × Nat) itemLe where
  antisymm a b hab hba := by
    rcases hab with h1 | ⟨h1, h1v⟩
    · rcases hba with h2 | ⟨h2, _⟩
      · exact absurd h2 (lt_asymm h1)
      · exact absurd (h2 ▸ h1) (lt_irrefl b.1)
    · rcases hba with h2 | ⟨h2, h2v⟩
      · exact absurd (h1 ▸ h2) (lt_irrefl b.1)
      · exact Prod.ext h1 (Nat.le_antisymm h1v h2v)

/-- The expression `sorted(self.dict().items())`. -/
def sortedItems (l : List (String × Nat)) : List (String × Nat) :=
  l.insertionSort itemLe

/-- Python's opaque `hash` of the tuple of sorted items, modelled by a
concrete function of that tuple. -/
def tupleHash (l : List (String × Nat)) : Nat :=
  l.foldl
    (fun a p =>
      Nat.pair a (Nat.pair (p.1.data.foldl (fun b c => b * 1114112 + c.toNat) 0) p.2))
    0

/-- Method `self.dict()`: the serialized field mapping. -/
def ValueObject.dict (v : ValueObject) : List (String × Nat) :=
  v.fields

/-- Method `ValueObject.__hash__`: `hash(tuple(sorted(self.dict().items())))`. -/
def ValueObject.hash (v : ValueObject) : Nat :=
  tupleHash (sortedItems v.dict)

/-- Dict field lookup, used to express Python dict equality. -/
def lookupField : List (String × Nat) → String → Option Nat
  | [], _ => none
  | p :: t, k => if p.1 = k then some p.2 else lookupField t k

/-- Python dict equality: same key-value mapping, order irrelevant. -/
def dictBEq (l1 l2 : List (String × Nat)) : Bool :=
  l1.all (fun p => lookupField l2 p.1 == some p.2) &&
  l2.all (fun p => lookupField l1 p.1 == some p.2)

/-- Method `ValueObject.__eq__`:
`isinstance(other, self.__class__) and self.dict() == other.dict()`. -/
def ValueObject.eq (a b : ValueObject) : Bool :=
  (a.cls == b.cls) && dictBEq a.dict b.dict

/-- Method `clone`: `self.copy()` — an independent copy with identical fields. -/
def ValueObject.clone (v : ValueObject) : ValueObject :=
  ⟨v.cls, v.fields⟩

/-- A validation error raised by the pydantic schema engine, carrying the
offending value. -/
structure ValidationError where
  offending : Nat

/-- A custom primitive type, abstracted (as spec §6 allows) by the validity
predicate its single-field pydantic validator decides. -/
structure PrimitiveType where
  valid : Nat → Bool

/-- Method `Primitive.parse`: run the ad-hoc single-field validator
(`create_model("Validator", v=(cls, ...))(v=value)`); raising is modelled by
`Except.error`; on success the value is returned unchanged. -/
def PrimitiveType.parse (c : PrimitiveType) (v : Nat) : Except ValidationError Nat :=
  if c.valid v then Except.ok v else Except.error ⟨v⟩

/-- Modelled from the spec: the two-variant `Result` container of the
`deepblu.result` module (not under src/): success carrying a value or
failure carrying an error (spec §6). -/
inductive Result (α ε : Type) where
  | ok : α → Result α ε
  | err : ε → Result α ε

/-- Modelled from the spec: the `is_ok` predicate of `Result` (spec §6). -/
def Result.isOk {α ε : Type} : Result α ε → Bool
  | Result.ok _ => true
  | Result.err _ => false

/-- Modelled from the spec: the `monadic` combinator of `deepblu.result`
(not under src/), which lifts a raising function into one returning a
`Result` (spec §6); a raising function is embedded as `Except`-valued. -/
def monadic {α β ε : Type} (f : α → Except ε β) (a : α) : Result β ε :=
  match f a with
  | Except.ok b => Result.ok b
  | Except.error e => Result.err e

/-- Method `Primitive.monadic_parse`: `monadic(cls.parse)(value)`. -/
def PrimitiveType.monadic_parse (c : PrimitiveType) (v : Nat) :
    Result Nat ValidationError :=
  monadic c.parse v

/-- Method `Primitive.is_valid`: `cls.monadic_parse(value).is_ok`. -/
def PrimitiveType.is_valid (c : PrimitiveType) (v : Nat) : Bool :=
  (c.monadic_parse v).isOk

end DomainPy

/-!
Basic lemmas about the registries and the injection loop.
-/

namespace DiPy

theorem upd_self {α : Type} (m : Factory → Option α) (k : Factory) (v : α) :
    upd m k v k = some v := by
  simp [upd]

theorem upd_other {α : Type} (m : Factory → Option α) (k x : Factory) (v : α)
    (h : x ≠ k) : upd m k v x = m x := by
  simp [upd, h]

/-- A bound key always resolves: `get` cannot raise when the binding table
holds the key. -/
theorem ProviderRegistry.getItem_isSome_of_bound (s : ProviderRegistry)
    (k : Factory) (h : (s.bindings k).isSome) :
    ∃ v t, s.getItem k = some (v, t) := by
  unfold ProviderRegistry.getItem ProviderRegistry.get
  cases hi : s.instances k with
  | some inst => exact ⟨inst, _, rfl⟩
  | none =>
    cases hb : s.bindings k with
    | none => rw [hb] at h; simp at h
    | some f => exact ⟨(f.invoke s.world).1, _, rfl⟩

/-- Resolution never changes the binding table. -/
theorem ProviderRegistry.getItem_bindings (s t : ProviderRegistry)
    (k : Factory) (v : PyVal) (h : s.getItem k = some (v, t)) :
    t.bindings = s.bindings := by
  unfold ProviderRegistry.getItem ProviderRegistry.get at h
  cases hi : s.instances k with
  | some inst => rw [hi] at h; cases h; rfl
  | none =>
    rw [hi] at h
    cases hb : s.bindings k with
    | none => rw [hb] at h; cases h
    | some f => rw [hb] at h; cases h; rfl

theorem kwLookup_append (kw l2 : List (String × PyVal)) (p : String) :
    kwLookup (kw ++ l2) p =
      (match kwLookup kw p with
      | some v => some v
      | none => kwLookup l2 p) := by
  induction kw with
  | nil => rfl
  | cons q t ih =>
    by_cases h : q.1 = p
    · simp [kwLookup, h]
    · simp [kwLookup, h, ih]

/-- The injection loop never overwrites an already-present keyword. -/
theorem injectLoop_preserves_kw (ann : List (String × Factory))
    (kw : List (String × PyVal)) (s : ProviderRegistry) (p : String) (v : PyVal)
    (h : kwLookup kw p = some v) :
    kwLookup (injectLoop ann kw s).1 p = some v := by
  induction ann generalizing kw s with
  | nil => exact h
  | cons a rest ih =>
    obtain ⟨name, provider⟩ := a
    show kwLookup (injectLoop ((name, provider) :: rest) kw s).1 p = some v
    rw [injectLoop]
    by_cases hg : ((s.bindings provider).isSome && (kwLookup kw name).isNone) = true
    · rw [if_pos hg]
      cases hget : s.getItem provider with
      | none => exact ih kw s h
      | some q =>
        apply ih
        rw [kwInsert, kwLookup_append, h]
    · rw [if_neg hg]
      exact ih kw s h

/-- The injection loop never changes the binding table. -/
theorem injectLoop_bindings (ann : List (String × Factory))
    (kw : List (String × PyVal)) (s : ProviderRegistry) :
    (injectLoop ann kw s).2.bindings = s.bindings := by
  induction ann generalizing kw s with
  | nil => rfl
  | cons a rest ih =>
    obtain ⟨name, provider⟩ := a
    rw [injectLoop]
    by_cases hg : ((s.bindings provider).isSome && (kwLookup kw name).isNone) = true
    · rw [if_pos hg]
      cases hget : s.getItem provider with
      | none => exact ih kw s
      | some q =>
        rw [ih]
        exact ProviderRegistry.getItem_bindings s q.2 provider q.1 hget
    · rw [if_neg hg]
      exact ih kw s

/-- Core injection lemma: an annotated name whose annotation is bound and
which the caller did not pass ends up mapped, in the final kwargs, to a
value resolved from the registry (against the unchanged binding table). -/
theorem injectLoop_injects (ann : List (String × Factory))
    (kw : List (String × PyVal)) (s : ProviderRegistry) (p : String) (k : Factory)
    (hnodup : (ann.map Prod.fst).Nodup)
    (hmem : (p, k) ∈ ann)
    (hb : (s.bindings k).isSome)
    (hkw : kwLookup kw p = none) :
    ∃ (v : PyVal) (t t2 : ProviderRegistry),
      t.bindings = s.bindings ∧ t.getItem k = some (v, t2) ∧
      kwLookup (injectLoop ann kw s).1 p = some v := by
  induction ann generalizing kw s with
  | nil => cases hmem
  | cons a rest ih =>
    obtain ⟨name, provider⟩ := a
    obtain ⟨hnotin, hnodup2⟩ := List.nodup_cons.mp hnodup
    rcases List.mem_cons.mp hmem with hhead | htail
    · have hp : p = name := (Prod.mk.inj hhead).1
      have hk : k = provider := (Prod.mk.inj hhead).2
      subst hp; subst hk
      have hg : ((s.bindings k).isSome && (kwLookup kw p).isNone) = true := by
        simp [hb, hkw]
      rw [injectLoop, if_pos hg]
      obtain ⟨v, t2, hget⟩ := ProviderRegistry.getItem_isSome_of_bound s k hb
      rw [hget]
      refine ⟨v, s, t2, rfl, hget, ?_⟩
      apply injectLoop_preserves_kw
      rw [kwInsert, kwLookup_append, hkw]
      simp [kwLookup]
    · have hname : name ≠ p := by
        intro hEq
        apply hnotin
        rw [hEq]
        exact List.mem_map.mpr ⟨(p, k), htail, rfl⟩
      rw [injectLoop]
      by_cases hg : ((s.bindings provider).isSome && (kwLookup kw name).isNone) = true
      · rw [if_pos hg]
        cases hget : s.getItem provider with
        | none => exact ih kw s hnodup2 htail hb hkw
        | some q =>
          have hbq : (q.2.bindings k).isSome := by
            rw [ProviderRegistry.getItem_bindings s q.2 provider q.1 hget]
            exact hb
          have hkw2 : kwLookup (kwInsert kw name q.1) p = none := by
            rw [kwInsert, kwLookup_append, hkw]
            simp [kwLookup, hname]
          obtain ⟨v, t, t2, htb, hres, hfin⟩ :=
            ih (kwInsert kw name q.1) q.2 hnodup2 htail hbq hkw2
          refine ⟨v, t, t2, ?_, hres, hfin⟩
          rw [htb]
          exact ProviderRegistry.getItem_bindings s q.2 provider q.1 hget
      · rw [if_neg hg]
        exact ih kw s hnodup2 htail hb hkw

end DiPy

/-!
Claim theorems.
-/

/-- C1: after `bind(k, f)`, in the memoizing registry (src/deepblu/di.py) the
first `get(k)` (no instance cached for `k`) invokes `f` and returns its
result, and every subsequent `get(k)` returns the SAME cached object with the
world unchanged (so `f` is not re-invoked); in the non-memoizing registry
(src/deepblu/di/registry.py) every `get(k)` invokes `f` and returns its
result. -/
theorem c1_bind_then_get_memoizes
    (s : DiPy.ProviderRegistry) (r : RegistryPy.ProviderRegistry)
    (k f : Factory) (h : s.instances k = none) :
    (∃ (v : PyVal) (s2 : DiPy.ProviderRegistry),
      (s.bind k f).get k = some (v, s2) ∧
      f.invoke s.world = (v, s2.world) ∧
      s2.instances k = some v ∧
      (∀ t : DiPy.ProviderRegistry, t.instances k = some v →
        ∃ t2, t.get k = some (v, t2) ∧ t2.world = t.world ∧
          t2.instances k = some v))
    ∧ (∀ w, (r.bind k f).get w k = some (f.invoke w)) := by
  constructor
  · refine ⟨(f.invoke s.world).1,
      { s.bind k f with
        instances := upd s.instances k (f.invoke s.world).1,
        world := (f.invoke s.world).2 }, ?_, ?_, ?_, ?_⟩
    · show DiPy.ProviderRegistry.get _ _ = _
      simp [DiPy.ProviderRegistry.get, DiPy.ProviderRegistry.bind, h, upd]
    · exact Prod.mk.eta.symm
    · exact DiPy.upd_self _ _ _
    · intro t ht
      refine ⟨{ t with instances := upd t.instances k (f.invoke s.world).1 },
        ?_, rfl, DiPy.upd_self _ _ _⟩
      simp [DiPy.ProviderRegistry.get, ht]
  · intro w
    simp [RegistryPy.ProviderRegistry.get, RegistryPy.ProviderRegistry.bind, upd]

/-- Witness for C1 at a concrete input: the empty registries, key `atom 0`,
factory `atom 1`. -/
theorem c1_bind_then_get_memoizes_witness :
    DiPy.ProviderRegistry.empty.instances (Factory.atom 0) = none ∧
    ((∃ (v : PyVal) (s2 : DiPy.ProviderRegistry),
      (DiPy.ProviderRegistry.empty.bind (Factory.atom 0) (Factory.atom 1)).get
          (Factory.atom 0) = some (v, s2) ∧
      (Factory.atom 1).invoke DiPy.ProviderRegistry.empty.world = (v, s2.world) ∧
      s2.instances (Factory.atom 0) = some v ∧
      (∀ t : DiPy.ProviderRegistry, t.instances (Factory.atom 0) = some v →
        ∃ t2, t.get (Factory.atom 0) = some (v, t2) ∧ t2.world = t.world ∧
          t2.instances (Factory.atom 0) = some v))
    ∧ (∀ w, (RegistryPy.ProviderRegistry.empty.bind (Factory.atom 0)
          (Factory.atom 1)).get w (Factory.atom 0) =
        some ((Factory.atom 1).invoke w))) :=
  ⟨rfl, c1_bind_then_get_memoizes DiPy.ProviderRegistry.empty
    RegistryPy.ProviderRegistry.empty (Factory.atom 0) (Factory.atom 1) rfl⟩

/-- Scenario refuting C2: bind `atom 0 ↦ atom 1`, resolve once, rebind
`atom 0 ↦ atom 2`, resolve again; report the second result together with the
final invocation log. -/
def c2Run : Option (PyVal × List Nat) :=
  (DiPy.get (DiPy.bind DiPy.ProviderRegistry.empty (Factory.atom 0)
      (Factory.atom 1)) (Factory.atom 0)).bind
    (fun p =>
      (DiPy.get (DiPy.bind p.2 (Factory.atom 0) (Factory.atom 2))
          (Factory.atom 0)).map
        (fun q => (q.1, q.2.world.calls)))

/-- Counterexample to C2: with a `get(k)` between the two binds, the `get(k)`
after the second bind returns the object produced by the FIRST factory
(`PyVal.obj 1 0`, provenance `atom 1`), and the final invocation log is
`[1]` — factory `atom 2` is never invoked, contradicting "reflects only the
latest factory f2 ... regardless of whether get(k) was also called between
the two binds". -/
theorem c2_counterexample_stale_cache :
    c2Run = some (PyVal.obj 1 0, [1]) ∧ (2 : Nat) ∉ [1] := by
  constructor
  · decide
  · decide

/-- C2 (amended): the second `bind` fully replaces the first in the bindings
table; a `get(k)` after the second bind reflects only the latest factory `f2`
PROVIDED no instance is cached for `k` (memoizing registry), and always
reflects `f2` in the non-memoizing registry; but if an instance was cached
for `k` (e.g. by a `get(k)` between the two binds), the memoizing registry
returns that cached instance, with no new invocation. -/
theorem c2_amended_rebind_last_write_wins
    (s : DiPy.ProviderRegistry) (r : RegistryPy.ProviderRegistry)
    (k f1 f2 : Factory) :
    ((DiPy.bind (DiPy.bind s k f1) k f2).bindings k = some f2)
    ∧ (s.instances k = none →
        ∃ (v : PyVal) (s2 : DiPy.ProviderRegistry),
          DiPy.get (DiPy.bind (DiPy.bind s k f1) k f2) k = some (v, s2) ∧
          f2.invoke s.world = (v, s2.world))
    ∧ (∀ w, ((r.bind k f1).bind k f2).get w k = some (f2.invoke w))
    ∧ (∀ v, s.instances k = some v →
        ∃ s2, DiPy.get (DiPy.bind (DiPy.bind s k f1) k f2) k = some (v, s2) ∧
          s2.world = s.world) := by
  refine ⟨?_, ?_, ?_, ?_⟩
  · simp [DiPy.bind, DiPy.ProviderRegistry.setItem, DiPy.ProviderRegistry.bind,
      upd]
  · intro h
    refine ⟨(f2.invoke s.world).1,
      { bindings := upd (upd s.bindings k f1) k f2,
        instances := upd s.instances k (f2.invoke s.world).1,
        world := (f2.invoke s.world).2 }, ?_, Prod.mk.eta.symm⟩
    simp [DiPy.get, DiPy.bind, DiPy.ProviderRegistry.setItem,
      DiPy.ProviderRegistry.getItem, DiPy.ProviderRegistry.get,
      DiPy.ProviderRegistry.bind, h, upd]
  · intro w
    simp [RegistryPy.ProviderRegistry.get, RegistryPy.ProviderRegistry.bind,
      upd]
  · intro v h
    refine
      ⟨({ bindings := upd (upd s.bindings k f1) k f2,
          instances := upd s.instances k v,
          world := s.world } : DiPy.ProviderRegistry), ?_, rfl⟩
    simp [DiPy.get, DiPy.bind, DiPy.ProviderRegistry.setItem,
      DiPy.ProviderRegistry.getItem, DiPy.ProviderRegistry.get,
      DiPy.ProviderRegistry.bind, h, upd]

/-- Witness for the amended C2 at a concrete input: empty registries, key
`atom 0`, factories `atom 1` then `atom 2`; the fresh-cache conjunct is
discharged at the empty instance cache. -/
theorem c2_amended_rebind_last_write_wins_witness :
    ((DiPy.bind (DiPy.bind DiPy.ProviderRegistry.empty (Factory.atom 0)
        (Factory.atom 1)) (Factory.atom 0) (Factory.atom 2)).bindings
      (Factory.atom 0) = some (Factory.atom 2))
    ∧ (∃ (v : PyVal) (s2 : DiPy.ProviderRegistry),
        DiPy.get (DiPy.bind (DiPy.bind DiPy.ProviderRegistry.empty
            (Factory.atom 0) (Factory.atom 1)) (Factory.atom 0)
            (Factory.atom 2)) (Factory.atom 0) = some (v, s2) ∧
        (Factory.atom 2).invoke DiPy.ProviderRegistry.empty.world =
          (v, s2.world))
    ∧ (∀ w, ((RegistryPy.ProviderRegistry.empty.bind (Factory.atom 0)
          (Factory.atom 1)).bind (Factory.atom 0) (Factory.atom 2)).get w
        (Factory.atom 0) = some ((Factory.atom 2).invoke w)) :=
  ⟨(c2_amended_rebind_last_write_wins DiPy.ProviderRegistry.empty
      RegistryPy.ProviderRegistry.empty (Factory.atom 0) (Factory.atom 1)
      (Factory.atom 2)).1,
   (c2_amended_rebind_last_write_wins DiPy.ProviderRegistry.empty
      RegistryPy.ProviderRegistry.empty (Factory.atom 0) (Factory.atom 1)
      (Factory.atom 2)).2.1 rfl,
   (c2_amended_rebind_last_write_wins DiPy.ProviderRegistry.empty
      RegistryPy.ProviderRegistry.empty (Factory.atom 0) (Factory.atom 1)
      (Factory.atom 2)).2.2.1⟩

/-- C3: `get` on a never-bound key — the method, the item access and the free
function, in both registry variants — raises a lookup error (`KeyError`,
modelled by `none`); it never returns a default value. -/
theorem c3_unbound_get_raises
    (s : DiPy.ProviderRegistry) (r : RegistryPy.ProviderRegistry)
    (k : Factory) (w : World)
    (hb : s.bindings k = none) (hi : s.instances k = none)
    (hr : r.bindings k = none) :
    s.get k = none ∧ s.getItem k = none ∧ DiPy.get s k = none ∧
    r.get w k = none ∧ r.getItem w k = none := by
  refine ⟨?_, ?_, ?_, ?_, ?_⟩ <;>
    simp [DiPy.ProviderRegistry.get, DiPy.ProviderRegistry.getItem, DiPy.get,
      RegistryPy.ProviderRegistry.get, RegistryPy.ProviderRegistry.getItem,
      hb, hi, hr]

/-- Witness for C3 at a concrete input: the empty registries and the
never-bound key `atom 7`. -/
theorem c3_unbound_get_raises_witness :
    DiPy.ProviderRegistry.empty.bindings (Factory.atom 7) = none ∧
    DiPy.ProviderRegistry.empty.instances (Factory.atom 7) = none ∧
    RegistryPy.ProviderRegistry.empty.bindings (Factory.atom 7) = none ∧
    (DiPy.ProviderRegistry.empty.get (Factory.atom 7) = none ∧
     DiPy.ProviderRegistry.empty.getItem (Factory.atom 7) = none ∧
     DiPy.get DiPy.ProviderRegistry.empty (Factory.atom 7) = none ∧
     RegistryPy.ProviderRegistry.empty.get ⟨0, []⟩ (Factory.atom 7) = none ∧
     RegistryPy.ProviderRegistry.empty.getItem ⟨0, []⟩ (Factory.atom 7) = none) :=
  ⟨rfl, rfl, rfl,
   c3_unbound_get_raises DiPy.ProviderRegistry.empty
     RegistryPy.ProviderRegistry.empty (Factory.atom 7) ⟨0, []⟩ rfl rfl rfl⟩

namespace DiPy

/-- The binding contributed by the last entry of `providers` whose key is
`k`, if any (bare providers bind themselves). -/
def lastImplFor (k : Factory) (providers : List ProviderEntry) : Option Factory :=
  (providers.reverse.find? (fun e => entryKey e == k)).map entryImpl

end DiPy

/-- C6: `bind_all(A, (B, implB))` leaves the registry in exactly the state of
`bind(A, A)` then `bind(B, implB)`; in general `bind_all` leaves instances
and world untouched and, for every key, the resulting binding is the one of
the last entry for that key (bare providers self-bound, later entries
overriding earlier ones), keys without an entry keeping their previous
binding. -/
theorem c6_bind_all_equiv_to_sequenced_binds
    (s : DiPy.ProviderRegistry) (A B implB : Factory) :
    (DiPy.bind_all s [DiPy.ProviderEntry.provider A,
        DiPy.ProviderEntry.binding B implB] =
      DiPy.bind (DiPy.bind s A A) B implB)
    ∧ (∀ entries : List DiPy.ProviderEntry,
        (DiPy.bind_all s entries).instances = s.instances ∧
        (DiPy.bind_all s entries).world = s.world)
    ∧ (∀ (entries : List DiPy.ProviderEntry) (k : Factory),
        (DiPy.bind_all s entries).bindings k =
          (DiPy.lastImplFor k entries).or (s.bindings k)) := by
  refine ⟨rfl, ?_, ?_⟩
  · intro entries
    induction entries generalizing s with
    | nil => exact ⟨rfl, rfl⟩
    | cons e rest ih => exact ih (DiPy.bind s (DiPy.entryKey e) (DiPy.entryImpl e))
  · intro entries k
    induction entries generalizing s with
    | nil => rfl
    | cons e rest ih =>
      show (DiPy.bind_all (DiPy.bind s (DiPy.entryKey e) (DiPy.entryImpl e)) rest).bindings k = _
      rw [ih]
      cases hrest : (rest.reverse.find? (fun x => DiPy.entryKey x == k)) with
      | some f =>
        have hL : DiPy.lastImplFor k rest = some (DiPy.entryImpl f) := by
          rw [DiPy.lastImplFor, hrest]; rfl
        have hR : DiPy.lastImplFor k (e :: rest) = some (DiPy.entryImpl f) := by
          rw [DiPy.lastImplFor, List.reverse_cons, List.find?_append, hrest]; rfl
        rw [hL, hR]
        rfl
      | none =>
        have hL : DiPy.lastImplFor k rest = none := by
          rw [DiPy.lastImplFor, hrest]; rfl
        have hR : DiPy.lastImplFor k (e :: rest) =
            (List.find? (fun x => DiPy.entryKey x == k) [e]).map DiPy.entryImpl := by
          rw [DiPy.lastImplFor, List.reverse_cons, List.find?_append, hrest]; rfl
        rw [hL, hR]
        by_cases hk : DiPy.entryKey e = k
        · subst hk
          simp [List.find?, DiPy.bind, DiPy.ProviderRegistry.setItem,
            DiPy.ProviderRegistry.bind, upd]
        · have hfalse : (DiPy.entryKey e == k) = false := beq_false_of_ne hk
          simp [List.find?, hfalse, DiPy.bind, DiPy.ProviderRegistry.setItem,
            DiPy.ProviderRegistry.bind, upd, Ne.symm hk]

/-- The objects produced by invoking atomic factories `ids` one after the
other, starting at allocation index `n`: the object of `ids[j]` carries
allocation index `n + j`. -/
def atomResults : List Nat → Nat → List PyVal
  | [], _ => []
  | i :: t, n => PyVal.obj i n :: atomResults t (n + 1)

theorem invokeList_atoms (ids : List Nat) (w : World) :
    invokeList (ids.map Factory.atom) w =
      (atomResults ids w.nextInv, ⟨w.nextInv + ids.length, w.calls ++ ids⟩) := by
  induction ids generalizing w with
  | nil => simp [invokeList, atomResults]
  | cons i t ih =>
    simp only [List.map_cons, invokeList, Factory.invoke, atomResults, ih]
    simp [Prod.ext_iff, World.mk.injEq]
    omega

/-- C7: `provide_many(I, impls)` pairs `I` with a factory that, when invoked,
returns the list of the results of invoking each element of `impls` in
order (threading the allocation state from left to right); in particular
`provide_many(I, [f1, f2])()` is the sequence `[f1(), f2()]` in that order,
and on atomic factories the produced objects carry consecutive allocation
indices and the invocation log is extended by the ids in order. -/
theorem c7_provide_many_in_order (I : Factory) (impls : List Factory)
    (f1 f2 : Factory) (w : World) (ids : List Nat) :
    ((DiPy.provide_many I impls).1 = I)
    ∧ ((DiPy.provide_many I impls).2.invoke w =
        (PyVal.list (invokeList impls w).1, (invokeList impls w).2))
    ∧ ((DiPy.provide_many I [f1, f2]).2.invoke w =
        (PyVal.list [(f1.invoke w).1, (f2.invoke (f1.invoke w).2).1],
          (f2.invoke (f1.invoke w).2).2))
    ∧ ((DiPy.provide_many I (ids.map Factory.atom)).2.invoke w =
        (PyVal.list (atomResults ids w.nextInv),
          ⟨w.nextInv + ids.length, w.calls ++ ids⟩)) := by
  refine ⟨rfl, rfl, rfl, ?_⟩
  show (PyVal.list (invokeList (ids.map Factory.atom) w).1,
      (invokeList (ids.map Factory.atom) w).2) = _
  rw [invokeList_atoms]

/-- C4: for an inject-wrapped callable with a parameter `p` whose annotation
is a key present in the binding table: if the caller does not supply `p` as a
keyword, the target is invoked with `p` mapped, in its kwargs, to an instance
resolved from the registry (against the same binding table); if the caller
does supply `p` as a keyword, the caller's value is passed through
unchanged — injection never overrides an explicit keyword. -/
theorem c4_inject_fills_missing_keyword
    (g : DiPy.FuncSpec) (s : DiPy.ProviderRegistry)
    (args : List PyVal) (kw : List (String × PyVal)) (p : String) (k : Factory)
    (hnodup : (g.fullAnnotations.map Prod.fst).Nodup)
    (hmem : (p, k) ∈ g.fullAnnotations)
    (hb : (s.bindings k).isSome) :
    (DiPy.kwLookup kw p = none →
        ∃ (v : PyVal) (t t2 : DiPy.ProviderRegistry),
          t.bindings = s.bindings ∧ t.getItem k = some (v, t2) ∧
          DiPy.kwLookup (DiPy.inject g s args kw).finalKwargs p = some v)
    ∧ (∀ v : PyVal, DiPy.kwLookup kw p = some v →
        DiPy.kwLookup (DiPy.inject g s args kw).finalKwargs p = some v) := by
  constructor
  · intro hkw
    exact DiPy.injectLoop_injects g.fullAnnotations kw s p k hnodup hmem hb hkw
  · intro v hv
    exact DiPy.injectLoop_preserves_kw g.fullAnnotations kw s p v hv

/-- The concrete wrapped callable used in the C4 witness: one parameter `p`
annotated with the key `atom 0`, no return annotation. -/
def c4Func : DiPy.FuncSpec :=
  ⟨["p"], [("p", Factory.atom 0)], none⟩

/-- The concrete registry used in the C4 witness: `atom 0` bound to
`atom 1`. -/
def c4State : DiPy.ProviderRegistry :=
  DiPy.bind DiPy.ProviderRegistry.empty (Factory.atom 0) (Factory.atom 1)

/-- Witness for C4 at a concrete input: calling the wrapped callable with no
arguments injects `p`. -/
theorem c4_inject_fills_missing_keyword_witness :
    ((c4Func.fullAnnotations.map Prod.fst).Nodup ∧
     ("p", Factory.atom 0) ∈ c4Func.fullAnnotations ∧
     (c4State.bindings (Factory.atom 0)).isSome ∧
     DiPy.kwLookup [] "p" = none) ∧
    (∃ (v : PyVal) (t t2 : DiPy.ProviderRegistry),
      t.bindings = c4State.bindings ∧
      t.getItem (Factory.atom 0) = some (v, t2) ∧
      DiPy.kwLookup (DiPy.inject c4Func c4State [] []).finalKwargs "p" = some v) :=
  ⟨⟨by decide, by decide, by decide, rfl⟩,
   (c4_inject_fills_missing_keyword c4Func c4State [] [] "p" (Factory.atom 0)
     (by decide) (by decide) (by decide)).1 rfl⟩

/-- C10: `inspect.getfullargspec(func).annotations` includes the return
annotation under the name `"return"`, and the wrapper iterates over the full
dict; so when the declared return annotation is a bound key and the caller
passes no keyword named `"return"`, the target is invoked with an extra
keyword argument `"return"` mapped to the registry-resolved instance — the
return annotation is treated like an injectable parameter. -/
theorem c10_return_annotation_injected
    (g : DiPy.FuncSpec) (s : DiPy.ProviderRegistry)
    (args : List PyVal) (kw : List (String × PyVal)) (k : Factory)
    (hret : g.retAnn = some k)
    (hnodup : (g.fullAnnotations.map Prod.fst).Nodup)
    (hb : (s.bindings k).isSome)
    (hkw : DiPy.kwLookup kw "return" = none) :
    ∃ (v : PyVal) (t t2 : DiPy.ProviderRegistry),
      t.bindings = s.bindings ∧ t.getItem k = some (v, t2) ∧
      DiPy.kwLookup (DiPy.inject g s args kw).finalKwargs "return" = some v := by
  have hmem : ("return", k) ∈ g.fullAnnotations := by
    simp [DiPy.FuncSpec.fullAnnotations, hret]
  exact DiPy.injectLoop_injects g.fullAnnotations kw s "return" k hnodup hmem
    hb hkw

/-- The concrete wrapped callable used in the C10 witness: no parameters,
return annotation `atom 0`. -/
def c10Func : DiPy.FuncSpec :=
  ⟨[], [], some (Factory.atom 0)⟩

/-- The concrete registry used in the C10 witness: `atom 0` bound to
`atom 1`. -/
def c10State : DiPy.ProviderRegistry :=
  DiPy.bind DiPy.ProviderRegistry.empty (Factory.atom 0) (Factory.atom 1)

/-- Witness for C10 at a concrete input. -/
theorem c10_return_annotation_injected_witness :
    (c10Func.retAnn = some (Factory.atom 0) ∧
     (c10Func.fullAnnotations.map Prod.fst).Nodup ∧
     (c10State.bindings (Factory.atom 0)).isSome ∧
     DiPy.kwLookup [] "return" = none) ∧
    (∃ (v : PyVal) (t t2 : DiPy.ProviderRegistry),
      t.bindings = c10State.bindings ∧
      t.getItem (Factory.atom 0) = some (v, t2) ∧
      DiPy.kwLookup (DiPy.inject c10Func c10State [] []).finalKwargs "return" =
        some v) :=
  ⟨⟨rfl, by decide, by decide, rfl⟩,
   c10_return_annotation_injected c10Func c10State [] [] (Factory.atom 0)
     rfl (by decide) (by decide) rfl⟩

/-- The concrete wrapped callable used for C5: one positional parameter `p`
annotated with the key `atom 0`, no return annotation. -/
def c5Func : DiPy.FuncSpec :=
  ⟨["p"], [("p", Factory.atom 0)], none⟩

/-- The concrete registry used for C5: `atom 0` bound to `atom 1`. -/
def c5State : DiPy.ProviderRegistry :=
  DiPy.bind DiPy.ProviderRegistry.empty (Factory.atom 0) (Factory.atom 1)

/-- Counterexample to C5: supplying `p` positionally (the caller's own object
`obj 9 9`) does not make the wrapped call proceed with the caller's value —
the wrapper still injects the keyword `p` (the resolved `obj 1 0` appears in
the final kwargs), and the call fails with a duplicate-argument `TypeError`
(modelled by `callEnv = none`). -/
theorem c5_counterexample_positional_typeerror :
    (DiPy.inject c5Func c5State [PyVal.obj 9 9] []).callEnv = none ∧
    DiPy.kwLookup (DiPy.inject c5Func c5State [PyVal.obj 9 9] []).finalKwargs
      "p" = some (PyVal.obj 1 0) := by
  constructor
  · decide
  · decide

/-- C5 (amended): explicitly-supplied keyword arguments are never overridden
by injection; positional arguments are not protected, however: when a
parameter whose annotation is a bound key is supplied positionally and not
as a keyword, the wrapper still injects the keyword, and the wrapped call
raises a duplicate-argument `TypeError` (modelled by `callEnv = none`)
instead of proceeding with the caller's positional value. -/
theorem c5_amended_positional_not_protected
    (g : DiPy.FuncSpec) (s : DiPy.ProviderRegistry)
    (args : List PyVal) (kw : List (String × PyVal)) (p : String) (k : Factory)
    (i : Nat)
    (hnodup : (g.fullAnnotations.map Prod.fst).Nodup)
    (hmem : (p, k) ∈ g.fullAnnotations)
    (hb : (s.bindings k).isSome)
    (hkw : DiPy.kwLookup kw p = none)
    (hpos : g.args[i]? = some p)
    (hlt : i < args.length) :
    ((DiPy.inject g s args kw).callEnv = none)
    ∧ (∀ (q : String) (v : PyVal), DiPy.kwLookup kw q = some v →
        DiPy.kwLookup (DiPy.inject g s args kw).finalKwargs q = some v) := by
  constructor
  · obtain ⟨v, t, t2, _, _, hfin⟩ :=
      DiPy.injectLoop_injects g.fullAnnotations kw s p k hnodup hmem hb hkw
    show DiPy.bindCall g.args args (DiPy.injectLoop g.fullAnnotations kw s).1 =
      none
    have hptake : p ∈ g.args.take args.length := by
      apply List.getElem?_mem
      rw [List.getElem?_take_of_lt hlt]
      exact hpos
    have hall : ((g.args.take args.length).all
        (fun q => (DiPy.kwLookup (DiPy.injectLoop g.fullAnnotations kw s).1
          q).isNone)) = false := by
      rw [List.all_eq_false]
      exact ⟨p, hptake, by simp [hfin]⟩
    unfold DiPy.bindCall
    simp [hall]
  · intro q v hv
    exact DiPy.injectLoop_preserves_kw g.fullAnnotations kw s q v hv

/-- Witness for the amended C5 at a concrete input: parameter `p` supplied
positionally while `p`'s annotation `atom 0` is bound. -/
theorem c5_amended_positional_not_protected_witness :
    ((c5Func.fullAnnotations.map Prod.fst).Nodup ∧
     ("p", Factory.atom 0) ∈ c5Func.fullAnnotations ∧
     (c5State.bindings (Factory.atom 0)).isSome ∧
     DiPy.kwLookup [] "p" = none ∧
     c5Func.args[0]? = some "p" ∧
     0 < [PyVal.obj 9 9].length) ∧
    (((DiPy.inject c5Func c5State [PyVal.obj 9 9] []).callEnv = none)
     ∧ (∀ (q : String) (v : PyVal), DiPy.kwLookup [] q = some v →
        DiPy.kwLookup (DiPy.inject c5Func c5State [PyVal.obj 9 9]
          []).finalKwargs q = some v)) :=
  ⟨⟨by decide, by decide, by decide, rfl, by decide, by decide⟩,
   c5_amended_positional_not_protected c5Func c5State [PyVal.obj 9 9] [] "p"
     (Factory.atom 0) 0 (by decide) (by decide) (by decide) rfl (by decide)
     (by decide)⟩

namespace DomainPy

theorem lookupField_eq_some_of_mem (l : List (String × Nat)) (k : String)
    (v : Nat) (hnd : (l.map Prod.fst).Nodup) (hmem : (k, v) ∈ l) :
    lookupField l k = some v := by
  induction l with
  | nil => cases hmem
  | cons p t ih =>
    obtain ⟨hnotin, hnd2⟩ := List.nodup_cons.mp hnd
    rcases List.mem_cons.mp hmem with hh | ht
    · rw [← hh]
      simp [lookupField]
    · have hne : p.1 ≠ k := by
        intro hEq
        apply hnotin
        rw [hEq]
        exact List.mem_map.mpr ⟨(k, v), ht, rfl⟩
      rw [lookupField, if_neg hne]
      exact ih hnd2 ht

theorem mem_of_lookupField_eq_some (l : List (String × Nat)) (k : String)
    (v : Nat) (h : lookupField l k = some v) : (k, v) ∈ l := by
  induction l with
  | nil => cases h
  | cons p t ih =>
    rw [lookupField] at h
    by_cases hp : p.1 = k
    · rw [if_pos hp] at h
      have hv : p.2 = v := Option.some.inj h
      exact List.mem_cons.mpr (Or.inl (by rw [← hp, ← hv]))
    · rw [if_neg hp] at h
      exact List.mem_cons.mpr (Or.inr (ih h))

theorem lookupField_eq_none_iff (l : List (String × Nat)) (k : String) :
    lookupField l k = none ↔ k ∉ l.map Prod.fst := by
  induction l with
  | nil => simp [lookupField]
  | cons p t ih =>
    rw [lookupField]
    by_cases hp : p.1 = k
    · simp [hp]
    · rw [if_neg hp, ih]
      constructor
      · intro hn hmem
        rcases List.mem_cons.mp hmem with h | h
        · exact hp h.symm
        · exact hn h
      · intro hn hmem
        exact hn (List.mem_cons.mpr (Or.inr hmem))

/-- Dict lookup is invariant under permutation of the entries when the keys
are distinct. -/
theorem perm_lookupField (l1 l2 : List (String × Nat)) (hperm : l1.Perm l2)
    (hnd1 : (l1.map Prod.fst).Nodup) (k : String) :
    lookupField l1 k = lookupField l2 k := by
  have hnd2 : (l2.map Prod.fst).Nodup := ((hperm.map Prod.fst).nodup_iff).mp hnd1
  cases h1 : lookupField l1 k with
  | some v =>
    exact (lookupField_eq_some_of_mem l2 k v hnd2
      (hperm.mem_iff.mp (mem_of_lookupField_eq_some l1 k v h1))).symm
  | none =>
    symm
    rw [lookupField_eq_none_iff] at h1 ⊢
    intro hmem
    exact h1 (((hperm.map Prod.fst).mem_iff).mpr hmem)

end DomainPy

/-- C8: two `ValueObject` instances of the same class holding identical field
values (their field entries a permutation of each other, as when constructed
via different code paths) are equal under `__eq__` and share the same hash,
computed from the sorted sequence of (field name, field value) pairs of the
serialized form. -/
theorem c8_value_object_structural_eq_and_hash
    (a b : DomainPy.ValueObject)
    (hcls : a.cls = b.cls)
    (hnd : (a.fields.map Prod.fst).Nodup)
    (hperm : a.fields.Perm b.fields) :
    DomainPy.ValueObject.eq a b = true ∧
    DomainPy.ValueObject.hash a = DomainPy.ValueObject.hash b := by
  have hnd2 : (b.fields.map Prod.fst).Nodup :=
    ((hperm.map Prod.fst).nodup_iff).mp hnd
  constructor
  · unfold DomainPy.ValueObject.eq DomainPy.dictBEq DomainPy.ValueObject.dict
    rw [Bool.and_eq_true, Bool.and_eq_true]
    refine ⟨by simp [hcls], ?_, ?_⟩
    · rw [List.all_eq_true]
      intro x hx
      have hx2 : (x.1, x.2) ∈ a.fields := by rw [Prod.mk.eta]; exact hx
      have hla := DomainPy.lookupField_eq_some_of_mem a.fields x.1 x.2 hnd hx2
      rw [DomainPy.perm_lookupField a.fields b.fields hperm hnd x.1] at hla
      simp [hla]
    · rw [List.all_eq_true]
      intro x hx
      have hx2 : (x.1, x.2) ∈ b.fields := by rw [Prod.mk.eta]; exact hx
      have hlb := DomainPy.lookupField_eq_some_of_mem b.fields x.1 x.2 hnd2 hx2
      rw [← DomainPy.perm_lookupField a.fields b.fields hperm hnd x.1] at hlb
      simp [hlb]
  · unfold DomainPy.ValueObject.hash DomainPy.ValueObject.dict
    congr 1
    unfold DomainPy.sortedItems
    have hperm2 : (a.fields.insertionSort DomainPy.itemLe).Perm
        (b.fields.insertionSort DomainPy.itemLe) :=
      ((List.perm_insertionSort DomainPy.itemLe a.fields).trans hperm).trans
        (List.perm_insertionSort DomainPy.itemLe b.fields).symm
    exact List.eq_of_perm_of_sorted hperm2
      (List.sorted_insertionSort DomainPy.itemLe a.fields)
      (List.sorted_insertionSort DomainPy.itemLe b.fields)

/-- The concrete value object used in the C8 witness. -/
def c8First : DomainPy.ValueObject :=
  ⟨0, [("x", 1), ("y", 2)]⟩

/-- The concrete value object used in the C8 witness, with the same fields in
a different construction order. -/
def c8Second : DomainPy.ValueObject :=
  ⟨0, [("y", 2), ("x", 1)]⟩

/-- Witness for C8 at a concrete input. -/
theorem c8_value_object_structural_eq_and_hash_witness :
    (c8First.cls = c8Second.cls ∧
     (c8First.fields.map Prod.fst).Nodup ∧
     c8First.fields.Perm c8Second.fields) ∧
    (DomainPy.ValueObject.eq c8First c8Second = true ∧
     DomainPy.ValueObject.hash c8First = DomainPy.ValueObject.hash c8Second) :=
  ⟨⟨rfl, by decide, by decide⟩,
   c8_value_object_structural_eq_and_hash c8First c8Second rfl (by decide)
     (by decide)⟩

/-- C9: `Primitive.is_valid(value)` is true exactly when
`Primitive.parse(value)` returns normally (and then parse returns the value
unchanged), and false exactly when `parse` raises a validation error;
`is_valid` is the boolean convenience over `monadic_parse`. -/
theorem c9_is_valid_consistent_with_parse
    (c : DomainPy.PrimitiveType) (v : Nat) :
    (c.is_valid v = true ↔ c.parse v = Except.ok v)
    ∧ (c.is_valid v = false ↔ ∃ e, c.parse v = Except.error e)
    ∧ (∀ r, c.parse v = Except.ok r → r = v)
    ∧ (c.is_valid v = (c.monadic_parse v).isOk) := by
  by_cases h : c.valid v <;>
    simp [DomainPy.PrimitiveType.is_valid, DomainPy.PrimitiveType.monadic_parse,
      DomainPy.monadic, DomainPy.PrimitiveType.parse, DomainPy.Result.isOk, h]
